import Mathlib

/-!
Verification of the core media-pipeline excerpt of the repository.

The definitions below are shallow embeddings of the TypeScript sources:
* `getSamplesFromTraf` — packages/webcodecs/src/can-copy-video-track.ts
* `convertMediaSteps`, the chunk/frame handlers — packages/webcodecs/src/convert-media.ts
* `expectSegment`, `handleBlockGroupSegment` — the Matroska parser excerpt
* `serializeTrack` — packages/media-parser/src/create/iso-base-media/serialize-track.ts

JavaScript numbers are modelled as `Int` (file offsets, timestamps, sizes,
durations) or `Nat` (bit-flag words); nullable values as `Option`; thrown
exceptions as `Except String`.
-/

namespace Remotion

/-- JS truthiness of an optional number: `null`/`undefined` and `0` are falsy.
The source tests `sample.sampleFlags ? … : …`, which is this predicate. -/
def truthyNat : Option Nat → Bool
  | none => false
  | some n => n != 0

/-- Output of the sample-position resolver (get-sample-positions.ts shape). -/
structure SamplePosition where
  offset : Int
  dts : Int
  cts : Int
  duration : Int
  isKeyframe : Bool
  size : Int
deriving DecidableEq, Repr

/-- One row of a `trun` box: per-sample fields are each optional. -/
structure TrunSample where
  sampleDuration : Option Int
  sampleSize : Option Int
  sampleFlags : Option Nat
deriving DecidableEq, Repr

/-- A `trun` (track-run) box. -/
structure TrunBox where
  dataOffset : Option Int
  firstSampleFlags : Option Nat
  samples : List TrunSample
deriving DecidableEq, Repr

/-- A `tfhd` (track-fragment header) box with its optional defaults. -/
structure TfhdBox where
  trackId : Int
  defaultSampleDuration : Option Int
  defaultSampleSize : Option Int
  defaultSampleFlags : Option Nat
deriving DecidableEq, Repr

/-- A `tfdt` (track-fragment decode time) box. -/
structure TfdtBox where
  baseMediaDecodeTime : Int
deriving DecidableEq, Repr

/-- A `traf` box, with the children that `getSamplesFromTraf` reads via the
traversal helpers `getTfhdBox` / `getTfdtBox` / `getTrunBoxes` (the helpers
select these children; we model them as direct accessors). -/
structure TrafBox where
  tfhdBox : Option TfhdBox
  tfdtBox : Option TfdtBox
  trunBoxes : List TrunBox
deriving DecidableEq, Repr

/-- The inner `for (const sample of trunBox.samples)` loop of
`getSamplesFromTraf`, with the loop counter `i` and the accumulators
`offset` and `time` made explicit. Mirrors the source line by line:
`??` is `Option.orElse`-style fallback, the flags chain uses JS truthiness. -/
def getSamplesFromTrunSamples
    (defaultSampleDuration defaultSampleSize : Option Int)
    (defaultSampleFlags : Option Nat)
    (tfdtBox : Option TfdtBox) (moofOffset : Int)
    (trunDataOffset : Option Int) (firstSampleFlags : Option Nat) :
    List TrunSample → Nat → Int → Int →
    Except String (List SamplePosition × Int × Int)
  | [], _i, offset, time => .ok ([], offset, time)
  | sample :: rest, i, offset, time =>
    match sample.sampleDuration.orElse (fun _ => defaultSampleDuration) with
    | none => .error "Expected duration"
    | some duration =>
      match sample.sampleSize.orElse (fun _ => defaultSampleSize) with
      | none => .error "Expected size"
      | some size =>
        let isFirstSample := i == 0
        let sampleFlags :=
          if truthyNat sample.sampleFlags then sample.sampleFlags
          else if isFirstSample && firstSampleFlags.isSome then firstSampleFlags
          else defaultSampleFlags
        match sampleFlags with
        | none => .error "Expected sample flags"
        | some flags =>
          let keyframe := ((flags >>> 16) &&& 1) == 0
          let samplePosition : SamplePosition :=
            { offset := offset + trunDataOffset.getD 0 + moofOffset
              dts := time + ((tfdtBox.map TfdtBox.baseMediaDecodeTime).getD 0)
              cts := time + ((tfdtBox.map TfdtBox.baseMediaDecodeTime).getD 0)
              duration := duration
              isKeyframe := keyframe
              size := size }
          match getSamplesFromTrunSamples defaultSampleDuration
              defaultSampleSize defaultSampleFlags tfdtBox moofOffset
              trunDataOffset firstSampleFlags rest (i + 1)
              (offset + size) (time + duration) with
          | .error e => .error e
          | .ok (ps, o, t) => .ok (samplePosition :: ps, o, t)

/-- The outer `for (const trunBox of trunBoxes)` loop: the accumulators
`offset` and `time` carry over from one trun to the next within a traf. -/
def getSamplesFromTrunBoxes
    (defaultSampleDuration defaultSampleSize : Option Int)
    (defaultSampleFlags : Option Nat)
    (tfdtBox : Option TfdtBox) (moofOffset : Int) :
    List TrunBox → Int → Int →
    Except String (List SamplePosition × Int × Int)
  | [], offset, time => .ok ([], offset, time)
  | trunBox :: rest, offset, time =>
    match getSamplesFromTrunSamples defaultSampleDuration defaultSampleSize
        defaultSampleFlags tfdtBox moofOffset trunBox.dataOffset
        trunBox.firstSampleFlags trunBox.samples 0 offset time with
    | .error e => .error e
    | .ok (ps, o, t) =>
      match getSamplesFromTrunBoxes defaultSampleDuration defaultSampleSize
          defaultSampleFlags tfdtBox moofOffset rest o t with
      | .error e => .error e
      | .ok (ps2, o2, t2) => .ok (ps ++ ps2, o2, t2)

/-- `getSamplesFromTraf` of can-copy-video-track.ts: resolves the sample
positions of one `traf` box given the enclosing `moof` box's offset. -/
def getSamplesFromTraf (trafSegment : TrafBox) (moofOffset : Int) :
    Except String (List SamplePosition) :=
  let tfhdBox := trafSegment.tfhdBox
  let defaultSampleDuration := tfhdBox.bind TfhdBox.defaultSampleDuration
  let defaultSampleSize := tfhdBox.bind TfhdBox.defaultSampleSize
  let defaultSampleFalgs := tfhdBox.bind TfhdBox.defaultSampleFlags
  match getSamplesFromTrunBoxes defaultSampleDuration defaultSampleSize
      defaultSampleFalgs trafSegment.tfdtBox moofOffset
      trafSegment.trunBoxes 0 0 with
  | .error e => .error e
  | .ok (samples, _, _) => .ok samples

/-- Sum of the resolved durations of a list of sample positions. -/
def sumDurations : List SamplePosition → Int
  | [] => 0
  | p :: ps => p.duration + sumDurations ps

/-- Sum of the resolved sizes of a list of sample positions. -/
def sumSizes : List SamplePosition → Int
  | [] => 0
  | p :: ps => p.size + sumSizes ps

/-- The `dataOffset ?? 0` of the trun that contains the `k`-th sample of the
traf, counting samples across all truns in order. -/
def dataOffsetAt : List TrunBox → Nat → Int
  | [], _ => 0
  | t :: rest, k =>
    if k < t.samples.length then t.dataOffset.getD 0
    else dataOffsetAt rest (k - t.samples.length)

/-- The input `trun` row of the `k`-th sample of the traf, together with
whether it is the first sample of its trun and that trun's
`firstSampleFlags`. -/
def inputSampleAt : List TrunBox → Nat → Option (TrunSample × Bool × Option Nat)
  | [], _ => none
  | t :: rest, k =>
    if h : k < t.samples.length then
      some (t.samples.get ⟨k, h⟩, k == 0, t.firstSampleFlags)
    else inputSampleAt rest (k - t.samples.length)

/-- The nullish (`??`) fallback of the resolver: the explicit trun value when
present, otherwise the `tfhd` default. -/
def resolveWithDefault (explicit dflt : Option Int) : Option Int :=
  explicit.orElse (fun _ => dflt)

/-- The flags fallback chain as the code implements it: the explicit
per-sample value only when present AND nonzero (JS truthiness of
`sample.sampleFlags ? … : …`), else `firstSampleFlags` for the first sample
of the trun when present, else the `tfhd` default. -/
def resolveFlagsTruthy (explicit : Option Nat) (isFirst : Bool)
    (firstSampleFlags dflt : Option Nat) : Option Nat :=
  if truthyNat explicit then explicit
  else if isFirst && firstSampleFlags.isSome then firstSampleFlags
  else dflt

/-- The flags fallback chain as the specification words it: the explicit
per-sample value whenever present (also when it is `0`). -/
def resolveFlagsClaimed (explicit : Option Nat) (isFirst : Bool)
    (firstSampleFlags dflt : Option Nat) : Option Nat :=
  match explicit with
  | some f => some f
  | none => if isFirst && firstSampleFlags.isSome then firstSampleFlags else dflt

/-- Keyframe bit of resolved sample flags: bit 16 cleared,
`!((flags >> 16) & 0x1)`. -/
def keyframeOfFlags (flags : Nat) : Bool := ((flags >>> 16) &&& 1) == 0

/-! ### convertMedia configuration validation (convert-media.ts) -/

/-- Observable step of `convertMedia` up to the start of parsing. -/
inductive ConvertStep
  | rejectWith (msg : String)
  | createMediaWriter
  | startParseMedia
deriving DecidableEq, Repr

/-- The head of `convertMedia`: the three early rejections, in source order
(`to`, then `audioCodec`, then `videoCodec`), happen before
`MediaParserInternals.createMedia(webFsWriter)` constructs the output writer
and before `parseMedia` starts reading the source. The argument values are
modelled as strings, the runtime representation of the union types. -/
def convertMediaSteps (toContainer audioCodec videoCodec : String) :
    List ConvertStep :=
  if toContainer ≠ "webm" then
    [.rejectWith "Only `to: \"webm\"` is supported currently"]
  else if audioCodec ≠ "opus" then
    [.rejectWith "Only `audioCodec: \"opus\"` is supported currently"]
  else if videoCodec ≠ "vp8" then
    [.rejectWith "Only `videoCodec: \"vp8\"` is supported currently"]
  else [.createMediaWriter, .startParseMedia]

/-! ### Pipeline progress state and chunk/frame handlers (convert-media.ts) -/

/-- The mutable `convertMediaState` counter object. -/
structure ConvertMediaState where
  decodedVideoFrames : Nat
  decodedAudioFrames : Nat
  encodedVideoFrames : Nat
  encodedAudioFrames : Nat
deriving DecidableEq, Repr

/-- What `onMediaStateUpdate` receives: either a fresh copy of the counters
(the source's spread `{...convertMediaState}`) or the one live
`convertMediaState` object itself (no spread). -/
inductive SnapshotArg
  | copied (s : ConvertMediaState)
  | shared
deriving DecidableEq, Repr

/-- Reading a delivered snapshot later, when the live counter object holds
`current`: a copy is unaffected, the shared reference shows `current`. -/
def observeSnapshot (current : ConvertMediaState) : SnapshotArg → ConvertMediaState
  | .shared => current
  | .copied s => s

/-- An encoded chunk as the handlers see it: `timestamp` and nullable
`duration`, both in microseconds. -/
structure EncodedChunk where
  timestamp : Int
  duration : Option Int
deriving DecidableEq, Repr

/-- Externally visible actions of the chunk/frame handlers. -/
inductive PipelineAction
  | addSample (chunk : EncodedChunk) (trackNumber : Nat)
  | updateDuration (newDurationMs : Int)
  | notifyMediaStateUpdate (arg : SnapshotArg)
  | encodeFrame
deriving DecidableEq, Repr

def isUpdateDuration : PipelineAction → Bool
  | .updateDuration _ => true
  | _ => false

/-- `Math.round((chunk.timestamp + (chunk.duration ?? 0)) / 1000)` on integer
microsecond inputs: floor of `(x + 500) / 1000` (round half toward +inf). -/
def newDurationOfChunk (chunk : EncodedChunk) : Int :=
  Int.fdiv (chunk.timestamp + chunk.duration.getD 0 + 500) 1000

/-- The video encoder `onChunk` handler (convert-media.ts lines 109-117):
addSample, updateDuration with the ms-rounded end time, increment
`encodedVideoFrames`, notify with a spread copy. -/
def videoOnChunk (chunk : EncodedChunk) (trackNumber : Nat)
    (st : ConvertMediaState) : ConvertMediaState × List PipelineAction :=
  let newDuration := newDurationOfChunk chunk
  let st1 := { st with encodedVideoFrames := st.encodedVideoFrames + 1 }
  (st1, [.addSample chunk trackNumber, .updateDuration newDuration,
    .notifyMediaStateUpdate (.copied st1)])

/-- The audio encoder `onChunk` handler (convert-media.ts lines 182-186):
addSample, increment `encodedAudioFrames`, notify with a spread copy.
There is no duration update on this path. -/
def audioOnChunk (chunk : EncodedChunk) (trackNumber : Nat)
    (st : ConvertMediaState) : ConvertMediaState × List PipelineAction :=
  let st1 := { st with encodedAudioFrames := st.encodedAudioFrames + 1 }
  (st1, [.addSample chunk trackNumber, .notifyMediaStateUpdate (.copied st1)])

/-- The video decoder `onFrame` handler (convert-media.ts lines 137-142):
encode the frame, increment `decodedVideoFrames`, notify with a spread copy. -/
def videoOnFrame (st : ConvertMediaState) :
    ConvertMediaState × List PipelineAction :=
  let st1 := { st with decodedVideoFrames := st.decodedVideoFrames + 1 }
  (st1, [.encodeFrame, .notifyMediaStateUpdate (.copied st1)])

/-- The audio decoder `onFrame` handler (convert-media.ts lines 210-215):
encode the frame, increment `decodedAudioFrames`, then
`onMediaStateUpdate?.(convertMediaState)` — the live object, no spread. -/
def audioOnFrame (st : ConvertMediaState) :
    ConvertMediaState × List PipelineAction :=
  let st1 := { st with decodedAudioFrames := st.decodedAudioFrames + 1 }
  (st1, [.encodeFrame, .notifyMediaStateUpdate .shared])

/-! ### Matroska BlockGroup handling (parseSegment, 0xa0 branch) -/

/-- The part of a parsed Block the keyframe flag is still missing from. -/
structure BlockVideoSample where
  trackId : Nat
  timestamp : Int
deriving DecidableEq, Repr

/-- A completed video sample: the Block fields plus the inferred type,
the source's string `'key'` or `'delta'`. -/
structure VideoSample where
  trackId : Nat
  timestamp : Int
  sampleType : String
deriving DecidableEq, Repr

/-- A child of a parsed BlockGroup, discriminated the way the source
discriminates on `c.type`. -/
inductive BlockGroupChild
  | simpleBlockOrBlock (videoSample : Option BlockVideoSample)
  | referenceBlock
  | other (id : Nat)
deriving DecidableEq, Repr

def BlockGroupChild.isBlock : BlockGroupChild → Bool
  | .simpleBlockOrBlock _ => true
  | _ => false

def BlockGroupChild.isReferenceBlock : BlockGroupChild → Bool
  | .referenceBlock => true
  | _ => false

/-- A parsed BlockGroup element. -/
structure BlockGroupSegment where
  children : List BlockGroupChild
deriving DecidableEq, Repr

/-- The `segmentId === '0xa0'` branch of `parseSegment`: find the Block
child (throw when absent), test for a ReferenceBlock sibling, and — only
when the Block carries a video sample — emit the completed frame whose type
is `'delta'` when a ReferenceBlock is present and `'key'` otherwise.
`.ok none` models the branch that emits nothing (no video sample). -/
def handleBlockGroupSegment (blockGroup : BlockGroupSegment) :
    Except String (Option VideoSample) :=
  match blockGroup.children.find? BlockGroupChild.isBlock with
  | none => .error "Expected block segment"
  | some (.simpleBlockOrBlock videoSample) =>
    let hasReferenceBlock :=
      (blockGroup.children.find? BlockGroupChild.isReferenceBlock).isSome
    match videoSample with
    | none => .ok none
    | some p =>
      .ok (some
        { trackId := p.trackId
          timestamp := p.timestamp
          sampleType := if hasReferenceBlock then "delta" else "key" })
  | some _ => .error "Expected block segment"

/-! ### ISO-BMFF track serialization (serialize-track.ts) -/

/-- Movie/track timescale constant of the ISO-BMFF muxer. -/
def ISO_BASE_TIMESCALE : Int := 1000

/-- Modelled from the spec: `tkhd` flag constants of the standard layout
(track enabled = 1, track in movie = 2); the source or-combines the two. -/
def TKHD_FLAG_TRACK_ENABLED : Nat := 1

def TKHD_FLAG_TRACK_IN_MOVIE : Nat := 2

/-- Modelled from the spec: the 3×3 identity matrix in 16.16/2.30 fixed
point, as `IDENTITY_MATRIX` of primitives.ts. -/
def IDENTITY_MATRIX : List Int :=
  [65536, 0, 0, 0, 65536, 0, 0, 0, 1073741824]

/-- Argument record of `createBtrt`. -/
structure BtrtAtom where
  avgBitrate : Int
  maxBitrate : Int
deriving DecidableEq, Repr

/-- The `codecSpecificData` union passed to `createStbl`. -/
inductive CodecSpecificData
  | mp4aData (avgBitrate maxBitrate : Int) (btrt : BtrtAtom)
      (channelCount sampleRate : Int)
  | avc1Data (avccBox : List Nat) (btrt : BtrtAtom) (compressorName : String)
      (depth horizontalResolution verticalResolution : Int)
      (height width : Int) (paspNum paspDen : Int)
deriving DecidableEq, Repr

/-- Argument record of `createTkhdForAudio` / `createTkhdForVideo`; `wrong`
is the source's `stringsToUint8Array('wrong')` fallback arm. -/
inductive TkhdAtom
  | audio (creationTime modificationTime : Option Int) (flags : Nat)
      (duration : Int) (trackId : Nat) (volume : Int)
  | video (creationTime modificationTime : Option Int) (flags : Nat)
      (duration : Int) (height width : Int) (matrix : List Int)
      (trackId : Nat) (volume : Int)
  | wrong
deriving DecidableEq, Repr

/-- Argument record of `createMdhd`. -/
structure MdhdAtom where
  creationTime : Option Int
  modificationTime : Option Int
  duration : Int
  timescale : Int
deriving DecidableEq, Repr

/-- Argument record of `createElstItem`. -/
structure ElstItem where
  segmentDuration : Int
  mediaTime : Int
deriving DecidableEq, Repr

/-- Argument record of `createStbl`. -/
structure StblAtom where
  samplePositions : List SamplePosition
  codecSpecificData : CodecSpecificData
deriving DecidableEq, Repr

/-- Argument record of `createMdia` (hdlr is `'video'` or `'audio'`). -/
structure MdiaAtom where
  mdhd : MdhdAtom
  hdlr : String
  stbl : StblAtom
deriving DecidableEq, Repr

/-- Argument record of `createTrak`: the canonical serialized track tree.
The byte-serializing builders (createTrak, createMdia, createMinf, …) are
outside the excerpt; they are modelled as argument-capturing constructors,
so this tree records exactly what `serializeTrack` hands them. -/
structure TrakAtom where
  tkhd : TkhdAtom
  edts : ElstItem
  mdia : MdiaAtom
deriving DecidableEq, Repr

/-- The track record `serializeTrack` consumes (`MakeTrackVideo` /
`MakeTrackAudio` flattened into one record; `trackType` is the union
discriminant `track.type`). `timescale` is modelled from the spec — track
descriptors carry the input timescale — and is there to observe that
`serializeTrack` never reads it. -/
structure MakeTrack where
  trackType : String
  codec : String
  codecPrivate : Option (List Nat)
  trackNumber : Nat
  width : Int
  height : Int
  numberOfChannels : Int
  sampleRate : Int
  timescale : Int
deriving DecidableEq, Repr

/-- Input record `IsoBaseMediaTrackData` of serialize-track.ts. -/
structure IsoBaseMediaTrackData where
  track : MakeTrack
  durationInUnits : Int
  samplePositions : List SamplePosition
deriving DecidableEq, Repr

/-- `serializeTrack` of serialize-track.ts: rejects any codec other than
`'h264'`/`'aac'`, requires `codecPrivate`, then builds the canonical trak
tree; the `mdhd` timescale it writes is the constant `ISO_BASE_TIMESCALE`. -/
def serializeTrack (data : IsoBaseMediaTrackData) : Except String TrakAtom :=
  if data.track.codec ≠ "h264" ∧ data.track.codec ≠ "aac" then
    .error "Currently only H.264 and AAC is supported"
  else
    match data.track.codecPrivate with
    | none => .error "Missing codecPrivate"
    | some codecPrivate =>
      .ok
        { tkhd :=
            if data.track.codec = "aac" then
              .audio none none
                (TKHD_FLAG_TRACK_ENABLED ||| TKHD_FLAG_TRACK_IN_MOVIE)
                data.durationInUnits data.track.trackNumber 1
            else if data.track.trackType = "video" then
              .video none none
                (TKHD_FLAG_TRACK_ENABLED ||| TKHD_FLAG_TRACK_IN_MOVIE)
                data.durationInUnits data.track.height data.track.width
                IDENTITY_MATRIX data.track.trackNumber 1
            else .wrong
          edts := { segmentDuration := data.durationInUnits, mediaTime := 0 }
          mdia :=
            { mdhd :=
                { creationTime := none, modificationTime := none,
                  duration := data.durationInUnits,
                  timescale := ISO_BASE_TIMESCALE }
              hdlr := if data.track.trackType = "video" then "video" else "audio"
              stbl :=
                { samplePositions := data.samplePositions
                  codecSpecificData :=
                    if data.track.trackType = "audio" then
                      .mp4aData 317370 319999
                        { avgBitrate := 317370, maxBitrate := 319999 }
                        data.track.numberOfChannels data.track.sampleRate
                    else
                      .avc1Data codecPrivate
                        { avgBitrate := 437875, maxBitrate := 437875 }
                        "" 24 72 72 data.track.height data.track.width 1 1 } } }

/-! ### Matroska incremental parsing: expectSegment -/

/-- The byte iterator: a byte buffer plus the counter's current offset.
Modelled from the spec: a cursor over a growing byte buffer whose counter
can be decremented to rewind. -/
structure BufferIterator where
  data : List Nat
  offset : Nat
deriving DecidableEq, Repr

def BufferIterator.getOffset (it : BufferIterator) : Nat := it.offset

def BufferIterator.byteLength (it : BufferIterator) : Nat := it.data.length

def BufferIterator.bytesRemaining (it : BufferIterator) : Int :=
  (it.data.length : Int) - (it.offset : Int)

/-- `iterator.counter.decrement(n)`: rewind the counter by `n` bytes. -/
def BufferIterator.decrement (it : BufferIterator) (n : Nat) : BufferIterator :=
  { it with offset := it.offset - n }

/-- Status part of a `ParseResult`. -/
inductive ParseStatus
  | done
  | incomplete
deriving DecidableEq, Repr

/-- A parsed Matroska segment; only the shape matters to `expectSegment`. -/
inductive ParsedSegment
  | mainSegment (children : List Nat)
  | clusterSegment (children : List Nat)
  | leaf (id : Nat)
deriving DecidableEq, Repr

/-- A `ParseResult` as returned by `expectSegment`; the `continueParsing`
continuation of an `incomplete` result replays `expectSegment` on the
iterator in the state this result leaves it in. -/
structure ParseResult where
  status : ParseStatus
  segments : List ParsedSegment
deriving DecidableEq, Repr

/-- A function consuming the iterator only forward, without touching the
buffer: the contract of the primitive reads `getMatroskaSegmentId` and
`getVint` (any number of bytes may have been consumed when they fail). -/
def AdvancesOnly {α : Type} (f : BufferIterator → Option α × BufferIterator) : Prop :=
  ∀ it : BufferIterator,
    it.offset ≤ (f it).2.offset ∧ (f it).2.data = it.data

/-- The reader and child-parser dependencies of `expectSegment`:
`getMatroskaSegmentId` and `getVint` live in buffer-iterator.ts and
`expectChildren` / `parseSegment` parse the payload; `expectSegment` is
verified for every implementation of them (ids as numeric values of their
on-the-wire form). -/
structure SegmentReaders where
  getMatroskaSegmentId : BufferIterator → Option Nat × BufferIterator
  getVint : BufferIterator → Option Nat × BufferIterator
  expectChildren : BufferIterator → Nat → Bool → ParseResult × BufferIterator
  parseSegment : BufferIterator → Nat → Nat → Nat → ParsedSegment × BufferIterator

/-- `expectSegment` of the Matroska parser: save the entry offset; return
`incomplete` (leaving the iterator rewound to the entry offset) when the
buffer is empty, the element id cannot be read, the size VINT cannot be
read, or — for non-container elements — the payload is not fully buffered;
recurse through `expectChildren` for Segment (0x18538067) and Cluster
(0x1f43b675); otherwise parse one segment and return `done`. -/
def expectSegment (readers : SegmentReaders) (iterator : BufferIterator) :
    ParseResult × BufferIterator :=
  let offset := iterator.getOffset
  if iterator.bytesRemaining = 0 then
    ({ status := .incomplete, segments := [] }, iterator)
  else
    match readers.getMatroskaSegmentId iterator with
    | (none, it1) =>
      ({ status := .incomplete, segments := [] },
       it1.decrement (it1.getOffset - offset))
    | (some segmentId, it1) =>
      match readers.getVint it1 with
      | (none, it2) =>
        ({ status := .incomplete, segments := [] },
         it2.decrement (it2.getOffset - offset))
      | (some length, it2) =>
        let bytesRemainingNow : Int :=
          (it2.byteLength : Int) - (it2.getOffset : Int)
        if segmentId = 0x18538067 ∨ segmentId = 0x1f43b675 then
          let result := readers.expectChildren it2 length (segmentId = 0x18538067)
          (result.1, result.2)
        else if bytesRemainingNow < (length : Int) then
          let bytesRead := it2.getOffset - offset
          ({ status := .incomplete, segments := [] }, it2.decrement bytesRead)
        else
          let parsed := readers.parseSegment it2 segmentId length
            (it2.getOffset - offset)
          ({ status := .done, segments := [parsed.1] }, parsed.2)

/-- Width of a VINT from its leading byte: the position of the first set
bit. Modelled from the spec (§ byte iterator); `none` for a zero byte
(reserved / unknown-width). -/
def vintWidth (b : Nat) : Option Nat :=
  if b ≥ 128 then some 1
  else if b ≥ 64 then some 2
  else if b ≥ 32 then some 3
  else if b ≥ 16 then some 4
  else if b ≥ 8 then some 5
  else if b ≥ 4 then some 6
  else if b ≥ 2 then some 7
  else if b = 1 then some 8
  else none

/-- Big-endian accumulation of a byte list. -/
def bytesToNatBE (bytes : List Nat) : Nat :=
  bytes.foldl (fun acc b => acc * 256 + b) 0

/-- Modelled from the spec: `read_matroska_id` reads a VINT but retains its
width-marker bit; fails (consuming at most a probe byte) when the buffer
holds fewer bytes than the VINT's width. -/
def readMatroskaSegmentId (it : BufferIterator) : Option Nat × BufferIterator :=
  match it.data.get? it.offset with
  | none => (none, it)
  | some b =>
    match vintWidth b with
    | none => (none, { it with offset := it.offset + 1 })
    | some w =>
      if it.offset + w ≤ it.data.length then
        (some (bytesToNatBE ((it.data.drop it.offset).take w)),
         { it with offset := it.offset + w })
      else (none, { it with offset := it.offset + 1 })

/-- Modelled from the spec: `read_vint` reads a VINT and masks off the
width-marker bit of the leading byte. -/
def readVint (it : BufferIterator) : Option Nat × BufferIterator :=
  match it.data.get? it.offset with
  | none => (none, it)
  | some b =>
    match vintWidth b with
    | none => (none, { it with offset := it.offset + 1 })
    | some w =>
      if it.offset + w ≤ it.data.length then
        (some (bytesToNatBE ((b % 2 ^ (8 - w)) ::
           ((it.data.drop (it.offset + 1)).take (w - 1)))),
         { it with offset := it.offset + w })
      else (none, { it with offset := it.offset + 1 })

/-! ### Concrete inputs used by the witnesses and counterexamples -/

/-- The fragmented-MP4 scenario of the specification: `tfdt` 90000, one trun
with `dataOffset` 8, `firstSampleFlags` 0 (keyframe), three samples of
default duration 3000 and sizes 4096/1024/1024, default flags 0x10000
(non-key). -/
def exTraf : TrafBox :=
  ⟨some ⟨1, some 3000, none, some 65536⟩, some ⟨90000⟩,
   [⟨some 8, some 0,
     [⟨none, some 4096, none⟩, ⟨none, some 1024, none⟩, ⟨none, some 1024, none⟩]⟩]⟩

/-- The resolver's output on `exTraf` with moof offset 100. -/
def exSamples : List SamplePosition :=
  [⟨108, 90000, 90000, 3000, true, 4096⟩,
   ⟨4204, 93000, 93000, 3000, false, 1024⟩,
   ⟨5228, 96000, 96000, 3000, false, 1024⟩]

/-- A traf whose only sample carries the explicit trun flags value `0`
(keyframe bit clear) while the `tfhd` default is 0x10000 (keyframe bit
set). -/
def zeroFlagsTraf : TrafBox :=
  ⟨some ⟨1, none, none, some 65536⟩, none,
   [⟨none, none, [⟨some 3000, some 4096, some 0⟩]⟩]⟩

/-- The all-zero counter state a conversion starts from. -/
def czero : ConvertMediaState := ⟨0, 0, 0, 0⟩

/-- A sample encoded chunk: timestamp 5000 µs, duration 1000 µs. -/
def exChunk : EncodedChunk := ⟨5000, some 1000⟩

/-- A writable h264 track whose input timescale is 90000. -/
def h264TrackData : IsoBaseMediaTrackData :=
  ⟨⟨"video", "h264", some [1, 66, 0, 40], 1, 1920, 1080, 0, 0, 90000⟩, 5000, []⟩

/-- An aac track whose input timescale is 44100. -/
def aacTrackData : IsoBaseMediaTrackData :=
  ⟨⟨"audio", "aac", some [18, 16], 2, 0, 0, 2, 44100, 44100⟩, 5000, []⟩

/-- A vp9 track: not writable by the ISO-BMFF muxer. -/
def vp9TrackData : IsoBaseMediaTrackData :=
  ⟨⟨"video", "vp9", some [1], 1, 1920, 1080, 0, 0, 90000⟩, 5000, []⟩

/-- A BlockGroup with a video Block and no ReferenceBlock sibling. -/
def keyBlockGroup : BlockGroupSegment :=
  ⟨[.other 0xa1, .simpleBlockOrBlock (some ⟨1, 17⟩)]⟩

/-- A BlockGroup whose Block carries no video sample. -/
def noSampleBlockGroup : BlockGroupSegment :=
  ⟨[.simpleBlockOrBlock none, .referenceBlock]⟩

/-- Concrete reader implementations for `expectSegment`. -/
def exReaders : SegmentReaders :=
  { getMatroskaSegmentId := readMatroskaSegmentId
    getVint := readVint
    expectChildren := fun it _ _ => (⟨.done, []⟩, it)
    parseSegment := fun it id _ _ => (.leaf id, it) }

/-- A buffer holding a SimpleBlock element id (0xa3) and size VINT (4) but
only one of the four payload bytes. -/
def exIterator : BufferIterator := ⟨[0xa3, 0x84, 1], 0⟩


/-! ## Theorems -/

theorem getSamplesFromTrunSamples_spec
    (dD dS : Option Int) (dF : Option Nat) (tfdt : Option TfdtBox)
    (m : Int) (dOff : Option Int) (fsf : Option Nat) :
    ∀ (ss : List TrunSample) (i : Nat) (offset time : Int)
      (ps : List SamplePosition) (o t : Int),
    getSamplesFromTrunSamples dD dS dF tfdt m dOff fsf ss i offset time
      = .ok (ps, o, t) →
    o = offset + sumSizes ps ∧ t = time + sumDurations ps ∧
      ps.length = ss.length ∧
    ∀ (k : Nat) (hk : k < ps.length) (hs : k < ss.length),
      ps[k].dts = time + sumDurations (ps.take k)
          + ((tfdt.map TfdtBox.baseMediaDecodeTime).getD 0) ∧
      ps[k].cts = ps[k].dts ∧
      ps[k].offset = offset + sumSizes (ps.take k) + dOff.getD 0 + m ∧
      ss[k].sampleDuration.orElse (fun _ => dD) = some ps[k].duration ∧
      ss[k].sampleSize.orElse (fun _ => dS) = some ps[k].size ∧
      ∃ flags, (if truthyNat ss[k].sampleFlags then ss[k].sampleFlags
                else if (i + k == 0) && fsf.isSome then fsf else dF)
            = some flags ∧
        ps[k].isKeyframe = (((flags >>> 16) &&& 1) == 0) := by
  intro ss
  induction ss with
  | nil =>
    intro i offset time ps o t h
    simp only [getSamplesFromTrunSamples] at h
    cases h
    refine ⟨by simp [sumSizes], by simp [sumDurations], rfl, ?_⟩
    intro k hk
    simp at hk
  | cons sample rest ih =>
    intro i offset time ps o t h
    rw [getSamplesFromTrunSamples] at h
    cases hdur : sample.sampleDuration.orElse (fun _ => dD) with
    | none => rw [hdur] at h; cases h
    | some duration =>
    rw [hdur] at h
    cases hsize : sample.sampleSize.orElse (fun _ => dS) with
    | none => rw [hsize] at h; cases h
    | some size =>
    rw [hsize] at h
    simp only [] at h
    cases hflags : (if truthyNat sample.sampleFlags then sample.sampleFlags
        else if (i == 0) && fsf.isSome then fsf else dF) with
    | none => rw [hflags] at h; cases h
    | some flags =>
    rw [hflags] at h
    cases hrec : getSamplesFromTrunSamples dD dS dF tfdt m dOff fsf rest
        (i + 1) (offset + size) (time + duration) with
    | error e => rw [hrec] at h; cases h
    | ok res =>
    obtain ⟨ps1, o1, t1⟩ := res
    rw [hrec] at h
    cases h
    obtain ⟨ho, ht, hlen, hk⟩ := ih (i + 1) (offset + size) (time + duration) _ _ _ hrec
    refine ⟨by simp [sumSizes]; omega, by simp [sumDurations]; omega, by simp [hlen], ?_⟩
    intro k hklt hslt
    cases k with
    | zero =>
      refine ⟨by simp [sumDurations], rfl, by simp [sumSizes], ?_, ?_, ?_⟩
      · simpa using hdur
      · simpa using hsize
      · exact ⟨flags, by simpa using hflags, rfl⟩
    | succ k =>
      have hklt1 : k < ps1.length := by simpa using hklt
      have hslt1 : k < rest.length := by simpa using hslt
      obtain ⟨hd, hc, hoff, hdu, hsz, fl, hfl, hkf⟩ := hk k hklt1 hslt1
      refine ⟨?_, ?_, ?_, ?_, ?_, ?_⟩
      · simp only [List.getElem_cons_succ, List.take_succ_cons, sumDurations]
        rw [hd]; ring
      · simpa using hc
      · simp only [List.getElem_cons_succ, List.take_succ_cons, sumSizes]
        rw [hoff]; ring
      · simpa using hdu
      · simpa using hsz
      · refine ⟨fl, ?_, by simpa using hkf⟩
        have : i + (k + 1) = i + 1 + k := by omega
        rw [List.getElem_cons_succ, this]
        exact hfl

theorem sumDurations_append (l1 l2 : List SamplePosition) :
    sumDurations (l1 ++ l2) = sumDurations l1 + sumDurations l2 := by
  induction l1 with
  | nil => simp [sumDurations]
  | cons p ps ih => simp [sumDurations, ih]; ring

theorem sumSizes_append (l1 l2 : List SamplePosition) :
    sumSizes (l1 ++ l2) = sumSizes l1 + sumSizes l2 := by
  induction l1 with
  | nil => simp [sumSizes]
  | cons p ps ih => simp [sumSizes, ih]; ring

theorem getSamplesFromTrunBoxes_spec
    (dD dS : Option Int) (dF : Option Nat) (tfdt : Option TfdtBox) (m : Int) :
    ∀ (tbs : List TrunBox) (offset time : Int)
      (ps : List SamplePosition) (o t : Int),
    getSamplesFromTrunBoxes dD dS dF tfdt m tbs offset time = .ok (ps, o, t) →
    o = offset + sumSizes ps ∧ t = time + sumDurations ps ∧
    ∀ (k : Nat) (hk : k < ps.length),
      ps[k].dts = time + sumDurations (ps.take k)
          + ((tfdt.map TfdtBox.baseMediaDecodeTime).getD 0) ∧
      ps[k].cts = ps[k].dts ∧
      ps[k].offset = offset + sumSizes (ps.take k) + dataOffsetAt tbs k + m ∧
      ∀ s isFirst fsf, inputSampleAt tbs k = some (s, isFirst, fsf) →
        s.sampleDuration.orElse (fun _ => dD) = some ps[k].duration ∧
        s.sampleSize.orElse (fun _ => dS) = some ps[k].size ∧
        ∃ flags, (if truthyNat s.sampleFlags then s.sampleFlags
                  else if isFirst && fsf.isSome then fsf else dF)
              = some flags ∧
          ps[k].isKeyframe = (((flags >>> 16) &&& 1) == 0) := by
  intro tbs
  induction tbs with
  | nil =>
    intro offset time ps o t h
    simp only [getSamplesFromTrunBoxes] at h
    cases h
    exact ⟨by simp [sumSizes], by simp [sumDurations], fun k hk => by simp at hk⟩
  | cons tb rest ih =>
    intro offset time ps o t h
    rw [getSamplesFromTrunBoxes] at h
    cases h1 : getSamplesFromTrunSamples dD dS dF tfdt m tb.dataOffset
        tb.firstSampleFlags tb.samples 0 offset time with
    | error e => rw [h1] at h; cases h
    | ok res1 =>
    obtain ⟨ps1, o1, t1⟩ := res1
    rw [h1] at h
    dsimp only at h
    cases h2 : getSamplesFromTrunBoxes dD dS dF tfdt m rest o1 t1 with
    | error e => rw [h2] at h; cases h
    | ok res2 =>
    obtain ⟨ps2, o2, t2⟩ := res2
    rw [h2] at h
    cases h
    obtain ⟨ho1, ht1, hlen1, hk1⟩ :=
      getSamplesFromTrunSamples_spec dD dS dF tfdt m tb.dataOffset
        tb.firstSampleFlags tb.samples 0 offset time ps1 o1 t1 h1
    obtain ⟨ho2, ht2, hk2⟩ := ih o1 t1 _ _ _ h2
    refine ⟨by rw [sumSizes_append]; omega, by rw [sumDurations_append]; omega, ?_⟩
    intro k hk
    by_cases hcase : k < ps1.length
    · have hga : (ps1 ++ ps2)[k] = ps1[k] := by
        rw [List.getElem_append k hk]
        simp [hcase]
      have htake : (ps1 ++ ps2).take k = ps1.take k := by
        rw [List.take_append_eq_append_take]
        have : k - ps1.length = 0 := by omega
        simp [this]
      have hslt : k < tb.samples.length := by omega
      obtain ⟨hd, hc, hoff, hrest⟩ := hk1 k hcase hslt
      have hdo : dataOffsetAt (tb :: rest) k = tb.dataOffset.getD 0 := by
        rw [dataOffsetAt]
        simp [hslt]
      have hin : inputSampleAt (tb :: rest) k
          = some (tb.samples[k], k == 0, tb.firstSampleFlags) := by
        rw [inputSampleAt]
        simp [hslt]
      refine ⟨by rw [hga, htake]; exact hd, by rw [hga]; exact hc,
        by rw [hga, htake, hdo]; exact hoff, ?_⟩
      intro s isFirst fsf hin2
      rw [hin] at hin2
      simp only [Option.some.injEq, Prod.mk.injEq] at hin2
      obtain ⟨hs, hf, hfs⟩ := hin2
      subst hs; subst hf; subst hfs
      obtain ⟨hdu, hsz, fl, hfl, hkf⟩ := hrest
      refine ⟨by rw [hga]; exact hdu, by rw [hga]; exact hsz, fl, ?_, by rw [hga]; exact hkf⟩
      simpa using hfl
    · have hlen1s : ps1.length = tb.samples.length := hlen1
      have hge : ps1.length ≤ k := by omega
      have hk2len : k - ps1.length < ps2.length := by
        have := hk
        simp [List.length_append] at this
        omega
      have hga : (ps1 ++ ps2)[k] = ps2[k - ps1.length] := by
        rw [List.getElem_append_right hge]
      have htake : (ps1 ++ ps2).take k = ps1 ++ ps2.take (k - ps1.length) := by
        rw [List.take_append_eq_append_take, List.take_of_length_le hge]
      have hdo : dataOffsetAt (tb :: rest) k = dataOffsetAt rest (k - tb.samples.length) := by
        rw [dataOffsetAt]
        have : ¬ k < tb.samples.length := by omega
        simp [this]
      have hin : inputSampleAt (tb :: rest) k = inputSampleAt rest (k - tb.samples.length) := by
        rw [inputSampleAt]
        have : ¬ k < tb.samples.length := by omega
        simp [this]
      obtain ⟨hd, hc, hoff, hrest⟩ := hk2 (k - ps1.length) hk2len
      refine ⟨?_, by rw [hga]; exact hc, ?_, ?_⟩
      · rw [hga, htake, sumDurations_append, hd, ht1]; ring
      · rw [hga, htake, sumSizes_append, hoff, ho1, hdo, hlen1s]; ring
      · intro s isFirst fsf hin2
        rw [hin, ← hlen1s] at hin2
        exact hga ▸ hrest s isFirst fsf hin2

/-- C1: for every traf, the `k`-th emitted sample position has
`dts = (tfdt.baseMediaDecodeTime ?? 0) + sum of the durations of the
preceding samples` and
`offset = moof.offset + dataOffset of its trun + sum of the sizes of the
preceding samples`. -/
theorem getSamplesFromTraf_dts_and_offset
    (traf : TrafBox) (moofOffset : Int) (samples : List SamplePosition)
    (h : getSamplesFromTraf traf moofOffset = .ok samples)
    (k : Nat) (hk : k < samples.length) :
    samples[k].dts
        = ((traf.tfdtBox.map TfdtBox.baseMediaDecodeTime).getD 0)
          + sumDurations (samples.take k) ∧
    samples[k].offset
        = moofOffset + dataOffsetAt traf.trunBoxes k
          + sumSizes (samples.take k) := by
  simp only [getSamplesFromTraf] at h
  cases h0 : getSamplesFromTrunBoxes
      (traf.tfhdBox.bind TfhdBox.defaultSampleDuration)
      (traf.tfhdBox.bind TfhdBox.defaultSampleSize)
      (traf.tfhdBox.bind TfhdBox.defaultSampleFlags)
      traf.tfdtBox moofOffset traf.trunBoxes 0 0 with
  | error e => rw [h0] at h; cases h
  | ok res =>
  obtain ⟨ps, o, t⟩ := res
  rw [h0] at h
  cases h
  obtain ⟨-, -, hks⟩ := getSamplesFromTrunBoxes_spec _ _ _ _ _ _ _ _ _ _ _ h0
  obtain ⟨hd, -, hoff, -⟩ := hks k hk
  constructor
  · rw [hd]; ring
  · rw [hoff]; ring

/-- C2 (amended): for every sample in a trun the resolver determines
duration and size by the nullish chain (explicit trun value when present,
else the tfhd default) and flags by the truthiness chain (explicit trun
value when present AND nonzero, else `trun.firstSampleFlags` for the first
sample of the trun when present, else the tfhd default); `isKeyframe` is
true exactly when bit 16 of the resolved flags is clear. -/
theorem getSamplesFromTraf_fallback_chain
    (traf : TrafBox) (moofOffset : Int) (samples : List SamplePosition)
    (h : getSamplesFromTraf traf moofOffset = .ok samples)
    (k : Nat) (hk : k < samples.length)
    (s : TrunSample) (isFirst : Bool) (fsf : Option Nat)
    (hin : inputSampleAt traf.trunBoxes k = some (s, isFirst, fsf)) :
    resolveWithDefault s.sampleDuration
        (traf.tfhdBox.bind TfhdBox.defaultSampleDuration)
      = some samples[k].duration ∧
    resolveWithDefault s.sampleSize
        (traf.tfhdBox.bind TfhdBox.defaultSampleSize)
      = some samples[k].size ∧
    ∃ flags,
      resolveFlagsTruthy s.sampleFlags isFirst fsf
          (traf.tfhdBox.bind TfhdBox.defaultSampleFlags) = some flags ∧
      samples[k].isKeyframe = keyframeOfFlags flags := by
  simp only [getSamplesFromTraf] at h
  cases h0 : getSamplesFromTrunBoxes
      (traf.tfhdBox.bind TfhdBox.defaultSampleDuration)
      (traf.tfhdBox.bind TfhdBox.defaultSampleSize)
      (traf.tfhdBox.bind TfhdBox.defaultSampleFlags)
      traf.tfdtBox moofOffset traf.trunBoxes 0 0 with
  | error e => rw [h0] at h; cases h
  | ok res =>
  obtain ⟨ps, o, t⟩ := res
  rw [h0] at h
  cases h
  obtain ⟨-, -, hks⟩ := getSamplesFromTrunBoxes_spec _ _ _ _ _ _ _ _ _ _ _ h0
  obtain ⟨-, -, -, hrest⟩ := hks k hk
  exact hrest s isFirst fsf hin

/-- C10: every sample position the fragmented-MP4 resolver produces has
`cts = dts`; no composition-time offset is ever applied. -/
theorem getSamplesFromTraf_cts_eq_dts
    (traf : TrafBox) (moofOffset : Int) (samples : List SamplePosition)
    (h : getSamplesFromTraf traf moofOffset = .ok samples) :
    ∀ p ∈ samples, p.cts = p.dts := by
  intro p hp
  obtain ⟨k, hk, rfl⟩ := List.mem_iff_getElem.mp hp
  simp only [getSamplesFromTraf] at h
  cases h0 : getSamplesFromTrunBoxes
      (traf.tfhdBox.bind TfhdBox.defaultSampleDuration)
      (traf.tfhdBox.bind TfhdBox.defaultSampleSize)
      (traf.tfhdBox.bind TfhdBox.defaultSampleFlags)
      traf.tfdtBox moofOffset traf.trunBoxes 0 0 with
  | error e => rw [h0] at h; cases h
  | ok res =>
  obtain ⟨ps, o, t⟩ := res
  rw [h0] at h
  cases h
  obtain ⟨-, -, hks⟩ := getSamplesFromTrunBoxes_spec _ _ _ _ _ _ _ _ _ _ _ h0
  exact (hks k hk).2.1



/-- Witness for C1 at the specification's concrete scenario: applying the
theorem at `exTraf`, moof offset 100, sample index 2. -/
theorem getSamplesFromTraf_dts_and_offset_witness :
    exSamples[2].dts = 90000 + sumDurations (exSamples.take 2) ∧
    exSamples[2].offset = 100 + dataOffsetAt exTraf.trunBoxes 2
      + sumSizes (exSamples.take 2) :=
  getSamplesFromTraf_dts_and_offset exTraf 100 exSamples rfl 2 (by decide)

/-- C2 counterexample: on `zeroFlagsTraf` the only sample carries the
explicit trun flags value 0, whose keyframe bit is clear, so the claimed
chain (explicit value whenever present) yields `isKeyframe = true`; the
code resolves the tfhd default 0x10000 instead and emits
`isKeyframe = false`. -/
theorem zeroSampleFlags_fall_through_counterexample :
    getSamplesFromTraf zeroFlagsTraf 0
      = .ok [⟨0, 0, 0, 3000, false, 4096⟩] ∧
    inputSampleAt zeroFlagsTraf.trunBoxes 0
      = some (⟨some 3000, some 4096, some 0⟩, true, none) ∧
    resolveFlagsClaimed (some 0) true none (some 65536) = some 0 ∧
    keyframeOfFlags 0 = true ∧
    resolveFlagsTruthy (some 0) true none (some 65536) = some 65536 ∧
    keyframeOfFlags 65536 = false :=
  ⟨rfl, rfl, rfl, rfl, rfl, rfl⟩

/-- Witness for C2 (amended) at `exTraf`, sample index 0: the duration
falls back to the tfhd default, the size is explicit, and the flags resolve
to `firstSampleFlags = 0`, a keyframe. -/
theorem getSamplesFromTraf_fallback_chain_witness :
    resolveWithDefault none (some 3000) = some (exSamples[0].duration) ∧
    resolveWithDefault (some 4096) none = some (exSamples[0].size) ∧
    ∃ flags, resolveFlagsTruthy none true (some 0) (some 65536) = some flags ∧
      exSamples[0].isKeyframe = keyframeOfFlags flags :=
  getSamplesFromTraf_fallback_chain exTraf 100 exSamples rfl 0 (by decide)
    ⟨none, some 4096, none⟩ true (some 0) rfl

/-- Witness for C10: applying the theorem to the first sample of the
concrete scenario. -/
theorem getSamplesFromTraf_cts_eq_dts_witness :
    (⟨108, 90000, 90000, 3000, true, 4096⟩ : SamplePosition).cts
      = (⟨108, 90000, 90000, 3000, true, 4096⟩ : SamplePosition).dts :=
  getSamplesFromTraf_cts_eq_dts exTraf 100 exSamples rfl
    ⟨108, 90000, 90000, 3000, true, 4096⟩ (by decide)


/-- C3: whenever the requested combination is not exactly
`to = webm`, `videoCodec = vp8`, `audioCodec = opus`, `convertMedia`
rejects with an unsupported-configuration error before any I/O: its step
trace is a single rejection, with no output writer created and no parsing
started. -/
theorem convertMedia_rejects_unsupported_config
    (toContainer audioCodec videoCodec : String)
    (h : ¬(toContainer = "webm" ∧ videoCodec = "vp8" ∧ audioCodec = "opus")) :
    (∃ msg, convertMediaSteps toContainer audioCodec videoCodec
      = [ConvertStep.rejectWith msg]) ∧
    ConvertStep.createMediaWriter
      ∉ convertMediaSteps toContainer audioCodec videoCodec ∧
    ConvertStep.startParseMedia
      ∉ convertMediaSteps toContainer audioCodec videoCodec := by
  unfold convertMediaSteps
  by_cases h1 : toContainer = "webm"
  · by_cases h2 : audioCodec = "opus"
    · by_cases h3 : videoCodec = "vp8"
      · exact absurd ⟨h1, h3, h2⟩ h
      · simp [h1, h2, h3]
    · simp [h1, h2]
  · simp [h1]

/-- Witness for C3: requesting an mp4 output is rejected before any I/O. -/
theorem convertMedia_rejects_unsupported_config_witness :
    (∃ msg, convertMediaSteps "mp4" "aac" "h264"
      = [ConvertStep.rejectWith msg]) ∧
    ConvertStep.createMediaWriter ∉ convertMediaSteps "mp4" "aac" "h264" ∧
    ConvertStep.startParseMedia ∉ convertMediaSteps "mp4" "aac" "h264" :=
  convertMedia_rejects_unsupported_config "mp4" "aac" "h264" (by simp)

/-- C5: a BlockGroup whose Block carries a video sample emits it typed
key exactly when the BlockGroup has no ReferenceBlock child (and delta
exactly when one is present); a Block without a video sample emits
nothing. -/
theorem blockGroup_keyframe_iff_no_referenceBlock (bg : BlockGroupSegment) :
    (∀ v, handleBlockGroupSegment bg = .ok (some v) →
      ((v.sampleType = "key" ↔
        ¬∃ c ∈ bg.children, c = BlockGroupChild.referenceBlock) ∧
       (v.sampleType = "delta" ↔
        ∃ c ∈ bg.children, c = BlockGroupChild.referenceBlock))) ∧
    (bg.children.find? BlockGroupChild.isBlock
        = some (.simpleBlockOrBlock none) →
      handleBlockGroupSegment bg = .ok none) := by
  have href : (bg.children.find? BlockGroupChild.isReferenceBlock).isSome
      ↔ ∃ c ∈ bg.children, c = BlockGroupChild.referenceBlock := by
    rw [List.find?_isSome]
    constructor
    · rintro ⟨c, hc, hp⟩
      cases c with
      | referenceBlock => exact ⟨_, hc, rfl⟩
      | simpleBlockOrBlock v => simp [BlockGroupChild.isReferenceBlock] at hp
      | other i => simp [BlockGroupChild.isReferenceBlock] at hp
    · rintro ⟨c, hc, rfl⟩
      exact ⟨_, hc, rfl⟩
  constructor
  · intro v hv
    unfold handleBlockGroupSegment at hv
    cases hfind : bg.children.find? BlockGroupChild.isBlock with
    | none => rw [hfind] at hv; cases hv
    | some c =>
      rw [hfind] at hv
      cases c with
      | simpleBlockOrBlock vs =>
        cases vs with
        | none => simp at hv
        | some p =>
          simp only [Except.ok.injEq, Option.some.injEq] at hv
          subst hv
          by_cases hrb :
              (bg.children.find? BlockGroupChild.isReferenceBlock).isSome
          · have hex := href.mp hrb
            rw [if_pos hrb]
            exact ⟨⟨fun hk => by simp at hk, fun hnex => absurd hex hnex⟩,
              ⟨fun _ => hex, fun _ => rfl⟩⟩
          · have hnex : ¬∃ c ∈ bg.children, c = BlockGroupChild.referenceBlock :=
              fun hex => hrb (href.mpr hex)
            rw [if_neg hrb]
            exact ⟨⟨fun _ => hnex, fun _ => rfl⟩,
              ⟨fun hd => by simp at hd, fun hex => absurd hex hnex⟩⟩
      | referenceBlock => cases hv
      | other i => cases hv
  · intro hfind
    unfold handleBlockGroupSegment
    rw [hfind]

/-- Witness for C5: a BlockGroup with no ReferenceBlock emits a key frame,
and a BlockGroup whose Block has no video sample emits nothing. -/
theorem blockGroup_keyframe_iff_no_referenceBlock_witness :
    ((("key" : String) = "key" ↔
      ¬∃ c ∈ keyBlockGroup.children, c = BlockGroupChild.referenceBlock) ∧
     (("key" : String) = "delta" ↔
      ∃ c ∈ keyBlockGroup.children, c = BlockGroupChild.referenceBlock)) ∧
    handleBlockGroupSegment noSampleBlockGroup = .ok none :=
  ⟨(blockGroup_keyframe_iff_no_referenceBlock keyBlockGroup).1
      ⟨1, 17, "key"⟩ rfl,
   (blockGroup_keyframe_iff_no_referenceBlock noSampleBlockGroup).2 rfl⟩

/-- C6 counterexample: on an encoded audio chunk the pipeline performs no
duration update at all (the claim says every encoded chunk, video and audio
alike, updates the accumulated output duration); the video path does
update it. -/
theorem audioOnChunk_no_duration_update_counterexample :
    ((audioOnChunk exChunk 2 czero).2.any isUpdateDuration = false) ∧
    ((videoOnChunk exChunk 1 czero).2.any isUpdateDuration = true) ∧
    newDurationOfChunk exChunk = 6 :=
  ⟨rfl, rfl, rfl⟩

/-- C6 (amended): on every encoded video chunk the pipeline calls
`updateDuration` with `Math.round((timestamp + (duration ?? 0)) / 1000)`
and notifies the observer with a spread copy of the counters; on every
encoded audio chunk it notifies with a spread copy but performs no
duration update. -/
theorem encoded_chunk_progress_updates (chunk : EncodedChunk)
    (tn : Nat) (st : ConvertMediaState) :
    (PipelineAction.updateDuration (newDurationOfChunk chunk)
        ∈ (videoOnChunk chunk tn st).2 ∧
     PipelineAction.notifyMediaStateUpdate
        (.copied (videoOnChunk chunk tn st).1) ∈ (videoOnChunk chunk tn st).2 ∧
     (videoOnChunk chunk tn st).1
        = { st with encodedVideoFrames := st.encodedVideoFrames + 1 }) ∧
    ((audioOnChunk chunk tn st).2.any isUpdateDuration = false ∧
     PipelineAction.notifyMediaStateUpdate
        (.copied (audioOnChunk chunk tn st).1) ∈ (audioOnChunk chunk tn st).2 ∧
     (audioOnChunk chunk tn st).1
        = { st with encodedAudioFrames := st.encodedAudioFrames + 1 }) := by
  refine ⟨⟨?_, ?_, rfl⟩, ⟨?_, ?_, rfl⟩⟩
  · simp [videoOnChunk]
  · simp [videoOnChunk]
  · simp [audioOnChunk, isUpdateDuration]
  · simp [audioOnChunk]

/-- C9: the audio decoded-frame path hands the progress observer the live
counter object itself (`onMediaStateUpdate` gets `convertMediaState`
without a spread), so a later counter update changes the previously
delivered snapshot: after two decoded audio frames the snapshot delivered
at the first frame reads `decodedAudioFrames = 2`, not the 1 a copy would
hold; the video decoded-frame path, which spreads, is unaffected. -/
theorem audio_decoded_frame_snapshot_is_shared :
    (audioOnFrame czero).2
      = [.encodeFrame, .notifyMediaStateUpdate .shared] ∧
    observeSnapshot (audioOnFrame (audioOnFrame czero).1).1 .shared
      = ⟨0, 2, 0, 0⟩ ∧
    (videoOnFrame czero).2
      = [.encodeFrame, .notifyMediaStateUpdate (.copied ⟨1, 0, 0, 0⟩)] ∧
    observeSnapshot (videoOnFrame (videoOnFrame czero).1).1
      (.copied (videoOnFrame czero).1)
      = ⟨1, 0, 0, 0⟩ :=
  ⟨rfl, rfl, rfl, rfl⟩


/-- C7 counterexample: the track carries input timescale 90000, but the
serialized `mdhd` timescale is the fixed constant 1000 — it is not carried
from the decoder output. -/
theorem serializeTrack_ignores_track_timescale_counterexample :
    (∃ trak, serializeTrack h264TrackData = .ok trak
      ∧ trak.mdia.mdhd.timescale = 1000
      ∧ trak.mdia.mdhd.timescale ≠ h264TrackData.track.timescale) ∧
    h264TrackData.track.timescale = 90000 :=
  ⟨⟨_, rfl, rfl, by decide⟩, rfl⟩

/-- C7 (amended): the muxer's movie timescale constant is 1000 (ms), and
the `mdhd` timescale serialized for every track is that same fixed
constant `ISO_BASE_TIMESCALE`, not the timescale carried from the decoder
output for the track. -/
theorem serializeTrack_mdhd_timescale_constant
    (data : IsoBaseMediaTrackData) (trak : TrakAtom)
    (h : serializeTrack data = .ok trak) :
    ISO_BASE_TIMESCALE = 1000 ∧
    trak.mdia.mdhd.timescale = ISO_BASE_TIMESCALE := by
  unfold serializeTrack at h
  split at h
  · cases h
  · cases hcp : data.track.codecPrivate with
    | none => rw [hcp] at h; cases h
    | some cp =>
      rw [hcp] at h
      cases h
      exact ⟨rfl, rfl⟩

/-- Witness for C7 (amended): the aac track, input timescale 44100, is
serialized with mdhd timescale 1000. -/
theorem serializeTrack_mdhd_timescale_constant_witness :
    ∃ trak, serializeTrack aacTrackData = Except.ok trak ∧
      (ISO_BASE_TIMESCALE = 1000 ∧
       trak.mdia.mdhd.timescale = ISO_BASE_TIMESCALE) :=
  ⟨_, rfl, serializeTrack_mdhd_timescale_constant aacTrackData _ rfl⟩

/-- C8: serializing a track whose codec is neither h264 nor aac fails with
the unsupported-codec error; an h264 or aac track with `codecPrivate`
present serializes without that error. -/
theorem serializeTrack_codec_gate (data : IsoBaseMediaTrackData) :
    (data.track.codec ≠ "h264" → data.track.codec ≠ "aac" →
      serializeTrack data
        = .error "Currently only H.264 and AAC is supported") ∧
    ((data.track.codec = "h264" ∨ data.track.codec = "aac") →
      data.track.codecPrivate.isSome →
      ∃ trak, serializeTrack data = Except.ok trak) := by
  constructor
  · intro h1 h2
    unfold serializeTrack
    rw [if_pos ⟨h1, h2⟩]
  · intro hc hp
    unfold serializeTrack
    have hno : ¬(data.track.codec ≠ "h264" ∧ data.track.codec ≠ "aac") := by
      rcases hc with h | h <;> simp [h]
    rw [if_neg hno]
    cases hcp : data.track.codecPrivate with
    | none => rw [hcp] at hp; cases hp
    | some cp =>
      exact ⟨_, rfl⟩

/-- Witness for C8: a vp9 track is rejected; the h264 track serializes. -/
theorem serializeTrack_codec_gate_witness :
    serializeTrack vp9TrackData
      = .error "Currently only H.264 and AAC is supported" ∧
    ∃ trak, serializeTrack h264TrackData = Except.ok trak :=
  ⟨(serializeTrack_codec_gate vp9TrackData).1 (by decide) (by decide),
   (serializeTrack_codec_gate h264TrackData).2 (Or.inl rfl) rfl⟩


/-- The concrete `readMatroskaSegmentId` only moves the cursor forward and
never touches the buffer. -/
theorem advancesOnly_readMatroskaSegmentId :
    AdvancesOnly readMatroskaSegmentId := by
  intro it
  unfold readMatroskaSegmentId
  cases hb : it.data.get? it.offset with
  | none => exact ⟨Nat.le_refl _, rfl⟩
  | some b =>
    dsimp only
    cases hw : vintWidth b with
    | none => exact ⟨Nat.le_succ _, rfl⟩
    | some w =>
      dsimp only
      by_cases hle : it.offset + w ≤ it.data.length
      · rw [if_pos hle]
        exact ⟨Nat.le_add_right _ _, rfl⟩
      · rw [if_neg hle]
        exact ⟨Nat.le_succ _, rfl⟩

/-- The concrete `readVint` only moves the cursor forward and never touches
the buffer. -/
theorem advancesOnly_readVint : AdvancesOnly readVint := by
  intro it
  unfold readVint
  cases hb : it.data.get? it.offset with
  | none => exact ⟨Nat.le_refl _, rfl⟩
  | some b =>
    dsimp only
    cases hw : vintWidth b with
    | none => exact ⟨Nat.le_succ _, rfl⟩
    | some w =>
      dsimp only
      by_cases hle : it.offset + w ≤ it.data.length
      · rw [if_pos hle]
        exact ⟨Nat.le_add_right _ _, rfl⟩
      · rw [if_neg hle]
        exact ⟨Nat.le_succ _, rfl⟩

/-- C4: whenever `expectSegment` returns `incomplete` because the element
id, the size VINT, or the (non-container) payload is not yet fully
buffered, the iterator it returns sits at exactly the offset held on entry
(with the buffer untouched), so replaying the continuation restarts at the
saved offset. Proved for every id/vint reader that only consumes forward
and for arbitrary child parsers. -/
theorem expectSegment_incomplete_restores_offset
    (readers : SegmentReaders) (iterator : BufferIterator)
    (hId : AdvancesOnly readers.getMatroskaSegmentId)
    (hVint : AdvancesOnly readers.getVint)
    (hcause :
      iterator.bytesRemaining = 0 ∨
      (readers.getMatroskaSegmentId iterator).1 = none ∨
      (∃ segmentId,
        (readers.getMatroskaSegmentId iterator).1 = some segmentId ∧
        (readers.getVint (readers.getMatroskaSegmentId iterator).2).1 = none) ∨
      (∃ segmentId length,
        (readers.getMatroskaSegmentId iterator).1 = some segmentId ∧
        (readers.getVint (readers.getMatroskaSegmentId iterator).2).1
          = some length ∧
        segmentId ≠ 0x18538067 ∧ segmentId ≠ 0x1f43b675 ∧
        ((readers.getVint (readers.getMatroskaSegmentId iterator).2).2.byteLength : Int)
          - ((readers.getVint (readers.getMatroskaSegmentId iterator).2).2.getOffset : Int)
          < (length : Int))) :
    (expectSegment readers iterator).1.status = .incomplete ∧
    (expectSegment readers iterator).2.offset = iterator.offset ∧
    (expectSegment readers iterator).2.data = iterator.data := by
  unfold expectSegment
  by_cases h0 : iterator.bytesRemaining = 0
  · rw [if_pos h0]
    exact ⟨rfl, rfl, rfl⟩
  · rw [if_neg h0]
    have h1 := hId iterator
    rcases hid : readers.getMatroskaSegmentId iterator with ⟨oid, it1⟩
    rw [hid] at h1
    have hle1 : iterator.offset ≤ it1.offset := h1.1
    have hdata1 : it1.data = iterator.data := h1.2
    cases oid with
    | none =>
      dsimp only
      refine ⟨rfl, ?_, hdata1⟩
      simp only [BufferIterator.decrement, BufferIterator.getOffset]
      omega
    | some segmentId =>
      dsimp only
      have h2 := hVint it1
      rcases hvint : readers.getVint it1 with ⟨olen, it2⟩
      rw [hvint] at h2
      have hle2 : it1.offset ≤ it2.offset := h2.1
      have hdata2 : it2.data = it1.data := h2.2
      cases olen with
      | none =>
        dsimp only
        refine ⟨rfl, ?_, by simp [BufferIterator.decrement, hdata2, hdata1]⟩
        simp only [BufferIterator.decrement, BufferIterator.getOffset]
        omega
      | some length =>
        dsimp only
        have hrest : segmentId ≠ 0x18538067 ∧ segmentId ≠ 0x1f43b675 ∧
            ((it2.byteLength : Int) - (it2.getOffset : Int) < (length : Int)) := by
          rcases hcause with hc | hc | hc | hc
          · exact absurd hc h0
          · rw [hid] at hc; cases hc
          · obtain ⟨sid, hcs, hcv⟩ := hc
            rw [hid] at hcv
            simp only at hcv
            rw [hvint] at hcv
            cases hcv
          · obtain ⟨sid, len, hcs, hcv, hcn1, hcn2, hcr⟩ := hc
            rw [hid] at hcs hcv hcr
            simp only at hcs hcv hcr
            rw [hvint] at hcv hcr
            simp only at hcv hcr
            cases hcs
            cases hcv
            exact ⟨hcn1, hcn2, hcr⟩
        obtain ⟨hn1, hn2, hshort⟩ := hrest
        have hncont : ¬(segmentId = 0x18538067 ∨ segmentId = 0x1f43b675) := by
          rintro (h | h)
          · exact hn1 h
          · exact hn2 h
        rw [if_neg hncont, if_pos hshort]
        refine ⟨rfl, ?_, by simp [BufferIterator.decrement, hdata2, hdata1]⟩
        simp only [BufferIterator.decrement, BufferIterator.getOffset]
        omega

/-- Witness for C4: on a buffer holding a SimpleBlock id and size VINT 4
but only one payload byte, `expectSegment` with the concrete readers
returns `incomplete` with the iterator back at offset 0. -/
theorem expectSegment_incomplete_restores_offset_witness :
    (expectSegment exReaders exIterator).1.status = .incomplete ∧
    (expectSegment exReaders exIterator).2.offset = exIterator.offset ∧
    (expectSegment exReaders exIterator).2.data = exIterator.data :=
  expectSegment_incomplete_restores_offset exReaders exIterator
    advancesOnly_readMatroskaSegmentId advancesOnly_readVint
    (Or.inr (Or.inr (Or.inr ⟨0xa3, 4, rfl, rfl, by decide, by decide, by decide⟩)))

end Remotion
